import Mathlib

/-!
# Verification of the `datacube` module

A shallow embedding, in Lean 4, of the original logic of `src/datacube.py`:

* `Datacube.radio_velocities_to_channels` (velocity → channel lookup via
  `np.searchsorted`, with a `sorter` for descending axes);
* `Datacube.frequencies` (spectral-axis type dispatch and its unsupported-type
  error);
* `Datacube.__init__` / `data` / `header` / `hdu` (construction and accessors);
* `DatacubeMoments.moment` (0th/1st moment over a velocity or channel
  sub-range with an optional mask).

Conventions of the embedding:

* numpy floating-point values become `ℚ`; a cube voxel is `Option ℚ`, with
  `none` standing for IEEE `NaN` (`np.nansum` drops `NaN` terms, which the
  model renders as `Option.getD · 0`);
* a Python call that can raise becomes `Except String α`, the payload naming
  the exception; a Python function that can `return None` wraps its result in
  `Option`;
* arrays indexed by channel/row/column become functions out of `ℕ`, with the
  spectral length `nc` carried separately; 1-D axes that are binary-searched
  become `List ℚ`.
-/

namespace Datacube

/-- `np.searchsorted(a, v)` with the default `side='left'`: on an ascendingly
sorted `a` it returns the left insertion point, i.e. the first index whose
element is `≥ v` (and `a.length` when every element is `< v`).  numpy's binary
search agrees with this linear characterisation exactly when `a` is sorted,
which is the only situation the source exercises. -/
def searchsorted_left (a : List ℚ) (v : ℚ) : ℕ :=
  a.findIdx (fun x => v ≤ x)

/-- `Datacube.radio_velocities_to_channels` (src/datacube.py lines 124–160)
for a single query velocity, already normalised to the axis unit (the unit
conversion at lines 144–148 is pure delegation to astropy and is dropped).

* `rv` is the cached `radio_velocities` axis, `v` the query.
* Lines 151–154: if `rv[0] > rv[-1]` the code passes
  `sorter = np.arange(size)[::-1]`, so `np.searchsorted` searches the
  reversed view `rv[sorter]`; the result is an index into that *sorted*
  order, and the code never maps it back through `sorter`.
* Line 156: `channels = np.searchsorted(...)`.
* Line 158: `true_velocities = self.radio_velocities[channels]`; an
  out-of-range channel makes this raise `IndexError`, as does `rv[0]` on an
  empty axis at line 151. -/
def radio_velocities_to_channels (rv : List ℚ) (v : ℚ) :
    Except String (ℕ × ℚ) :=
  match rv.head?, rv.getLast? with
  | some h0, some hl =>
    let ch := if h0 > hl then searchsorted_left rv.reverse v
              else searchsorted_left rv v
    match rv[ch]? with
    | some t => .ok (ch, t)
    | none => .error "IndexError"
  | _, _ => .error "IndexError"

/-- `'pat' in s` for Python strings: substring containment, used by the
`CTYPE` dispatch of `Datacube.frequencies` (lines 109–113). -/
def listContainsSub : List Char → List Char → Bool
  | _, [] => true
  | [], _ :: _ => false
  | c :: cs, p :: ps => (p :: ps).isPrefixOf (c :: cs) || listContainsSub cs (p :: ps)

/-- Python's `pat in ctype` on strings, via the character lists. -/
def strContainsSub (s pat : String) : Bool :=
  listContainsSub s.data pat.data

/-- Exact speed of light in m/s, the constant behind astropy's Doppler
equivalencies. -/
def cLight : ℚ := 299792458

/-- astropy `u.doppler_radio(restfrq)`: velocity → frequency,
`f = restfrq * (1 - v / c)` (SI units). -/
def radioToFreq (restfrq v : ℚ) : ℚ :=
  restfrq * (1 - v / cLight)

/-- astropy `u.doppler_optical(restfrq)`: velocity → frequency,
`f = restfrq / (1 + v / c)` (SI units). -/
def opticalToFreq (restfrq v : ℚ) : ℚ :=
  restfrq / (1 + v / cLight)

/-- The spectral-axis-type dispatch of `Datacube.frequencies`
(src/datacube.py lines 100–121).  The pixel → world transform
(`wcs_pix2world`, lines 103–106) is delegation to the wcs library, so the
physical spectral coordinates `specc` (in SI units) enter as a parameter;
what the source adds is the `CTYPE` dispatch:

* `'VRAD' in ctype` → radio Doppler equivalency;
* `'VOPT' in ctype` → optical Doppler equivalency;
* `'FREQ' in ctype` → identity (`eq = []`);
* anything else → `AttributeError('Unsupported spectral type {:s} in
  header.'.format(ctype))`, so no axis is produced at all. -/
def frequencies (ctype : String) (restfrq : ℚ) (specc : List ℚ) :
    Except String (List ℚ) :=
  if strContainsSub ctype "VRAD" then
    .ok (specc.map (radioToFreq restfrq))
  else if strContainsSub ctype "VOPT" then
    .ok (specc.map (opticalToFreq restfrq))
  else if strContainsSub ctype "FREQ" then
    .ok specc
  else
    .error ("Unsupported spectral type " ++ ctype ++ " in header.")

/-- A FITS extension as far as `Datacube.__init__` looks at it: the
`is_image` flag consulted by the selection loop, the payload array and the
header. -/
structure ImageHDU where
  is_image : Bool
  hdata : List ℚ
  hheader : List (String × String)
deriving DecidableEq

/-- `Datacube.__init__` (src/datacube.py lines 27–46).  Opening the file is
delegation to `astropy.io.fits`, so a path enters as the list of extensions
`fits.open(path)` yields.  The loop at lines 33–36 keeps the first extension
with `is_image` set and breaks; if none matches, `_hdu` silently stays
`None`.  Lines 38–40 build an `ImageHDU` from an explicit (data, header)
pair; lines 42–44 raise `AttributeError` when neither source is given.  The
result is the `_hdu` field of the constructed object. -/
def datacubeInit (pathHdus : Option (List ImageHDU)) (d : Option (List ℚ))
    (hd : Option (List (String × String))) :
    Except String (Option ImageHDU) :=
  match pathHdus with
  | some hs => .ok (hs.find? (fun h => h.is_image))
  | none =>
    match d, hd with
    | some dd, some hh => .ok (some ⟨true, dd, hh⟩)
    | _, _ => .error "Either path or data and header have to be set."

/-- The `data` property (lines 48–52): `self._hdu.data` raises
`AttributeError` when `_hdu` is `None` (the dtype coercion is a cast of the
same values and is identity here, where all values are already `ℚ`). -/
def datacubeData : Option ImageHDU → Except String (List ℚ)
  | none => .error "AttributeError: NoneType object has no attribute data"
  | some h => .ok h.hdata

/-- The `header` property (lines 54–56): `self._hdu.header`, raising
`AttributeError` when `_hdu` is `None`. -/
def datacubeHeader : Option ImageHDU → Except String (List (String × String))
  | none => .error "AttributeError: NoneType object has no attribute header"
  | some h => .ok h.hheader

/-- The `hdu` property (lines 58–60): literally `return self._hdu`, which
cannot fail — on a cube with no loaded extension it returns `None`. -/
def datacubeHdu (s : Option ImageHDU) : Option ImageHDU :=
  s

end Datacube

namespace DatacubeMoments

open Datacube

/-- The mask argument of `moment`, following the shape dispatch at
src/datacube.py lines 177–182: absent (`mask = 1.`), shaped like one spatial
plane (`mask.shape == self.data.shape[1:]`, then broadcast over channels via
`mask[None]`), or shaped like the full cube (`mask.shape == self.data.shape`,
then sliced by `data_slice` alongside the data). -/
inductive Mask where
  | none : Mask
  | plane (m : ℕ → ℕ → ℚ) : Mask
  | cube (m : ℕ → ℕ → ℕ → ℚ) : Mask

/-- The per-voxel multiplicative factor each `Mask` branch contributes at
(absolute) channel `c`, row `y`, column `x`. -/
def maskVal : Mask → ℕ → ℕ → ℕ → ℚ
  | .none, _, _, _ => 1
  | .plane m, _, y, x => m y x
  | .cube m, c, y, x => m c y x

/-- Normalisation of one slice bound for an axis of length `n` (Python/numpy
slice semantics with unit step): a negative bound counts from the end, and
the result is clamped into `[0, n]`. -/
def sliceBound (n : ℕ) (a : ℤ) : ℕ :=
  min (if a < 0 then a + n else a).toNat n

/-- The list of absolute channel indices `data_slice = slice(lo, hi)` selects
on a spectral axis of length `n`. -/
def sliceSel (n : ℕ) (lo hi : ℤ) : List ℕ :=
  (List.range n).filter (fun i => sliceBound n lo ≤ i ∧ i < sliceBound n hi)

/-- Modelled from the spec: `DatacubeMoments.moment` reads `self.velocities`
(src/datacube.py line 190), a per-channel velocity axis that no class in
src/ defines — `Datacube` provides only `radio_velocities` and
`optical_velocities`.  The spec (§4.2) calls it the "per-channel-velocity"
axis, "aligned index-for-index with the spectral axis"; it is modelled as an
explicit total function on channel indices, passed to `moment` as the
parameter `vel`. -/
def velocities (vel : ℕ → ℚ) (c : ℕ) : ℚ :=
  vel c

/-- The reduction part of `moment` (src/datacube.py lines 173–194), after the
spectral bounds `lo, hi` have been fixed: integer bounds by
`int(np.floor(lo))` / `int(np.ceil(hi))` (line 173–174), `data_slice`
(line 175), the mask dispatch (lines 177–182), and the `kind` dispatch:

* `kind = 0` (lines 186–187): `np.nansum(s_data * mask, 0)` — per spatial
  pixel, the sum over selected channels of data × mask with `NaN` voxels
  contributing zero;
* `kind = 1` (lines 189–194): `np.nansum(s_data * s_velocities * mask, 0)`
  divided elementwise by the `kind = 0` sum; a zero denominator makes the
  IEEE quotient non-finite, rendered as `none` in the result plane;
* any other `kind`: the function body ends, so Python returns `None`. -/
def momentCompute (vel : ℕ → ℚ) (nc : ℕ) (data : ℕ → ℕ → ℕ → Option ℚ)
    (lo hi : ℚ) (kind : ℤ) (mask : Mask) :
    Except String (Option (ℕ → ℕ → Option ℚ)) :=
  let sel := sliceSel nc ⌊lo⌋ ⌈hi⌉
  if kind = 0 then
    .ok (some (fun y x =>
      some ((sel.map
        (fun c => ((data c y x).getD 0) * maskVal mask c y x)).sum)))
  else if kind = 1 then
    .ok (some (fun y x =>
      let num := (sel.map
        (fun c => ((data c y x).getD 0) * velocities vel c * maskVal mask c y x)).sum
      let den := (sel.map
        (fun c => ((data c y x).getD 0) * maskVal mask c y x)).sum
      if den = 0 then none else some (num / den)))
  else
    .ok none

/-- The spectral sub-range resolution of `moment` (src/datacube.py lines
167–171), with `rv` the host cube's `radio_velocities` axis and the two
range arguments as endpoint pairs.
Lines 167–169: a velocity range is converted endpoint-wise through
`radio_velocities_to_channels` (one vectorised call, so an `IndexError` on
either endpoint propagates), and the upper channel is widened by one
(`cslice[-1] += 1`).  If both ranges are absent the body is skipped and the
function returns `None`. -/
def resolveRange (rv : List ℚ) (vslice cslice : Option (ℚ × ℚ)) :
    Except String (Option (ℚ × ℚ)) :=
  match vslice with
  | some (v0, v1) =>
    match radio_velocities_to_channels rv v0,
          radio_velocities_to_channels rv v1 with
    | .ok (c0, _), .ok (c1, _) => .ok (some ((c0 : ℚ), (c1 : ℚ) + 1))
    | .error e, _ => .error e
    | _, .error e => .error e
  | none => .ok cslice

/-- `DatacubeMoments.moment` (src/datacube.py lines 165–194): resolve the
spectral sub-range from `vslice`/`cslice` (`resolveRange`, lines 167–171,
returning `None` when both are absent), then reduce over it
(`momentCompute`, lines 173–194).

* `rv` — the host cube's `radio_velocities` axis (length `nc`);
* `vel` — the `self.velocities` axis (see `velocities`);
* `nc` — spectral length of `self.data`; `data c y x` its voxels. -/
def moment (rv : List ℚ) (vel : ℕ → ℚ) (nc : ℕ)
    (data : ℕ → ℕ → ℕ → Option ℚ) (vslice : Option (ℚ × ℚ))
    (cslice : Option (ℚ × ℚ)) (kind : ℤ) (mask : Mask) :
    Except String (Option (ℕ → ℕ → Option ℚ)) :=
  match resolveRange rv vslice cslice with
  | .error e => .error e
  | .ok none => .ok none
  | .ok (some (lo, hi)) => momentCompute vel nc data lo hi kind mask

end DatacubeMoments

open Datacube DatacubeMoments

/-! ## Helper lemmas -/

/-- In a strictly ascending list, positions are ordered: `i ≤ j` gives
`l[i] ≤ l[j]`. -/
theorem sorted_getElem_mono (l : List ℚ) (hs : l.Sorted (· < ·))
    (i j : ℕ) (hij : i ≤ j) (hj : j < l.length) :
    l.get ⟨i, Nat.lt_of_le_of_lt hij hj⟩ ≤ l.get ⟨j, hj⟩ := by
  rcases Nat.eq_or_lt_of_le hij with rfl | h
  · exact le_refl _
  · exact le_of_lt (hs.rel_get_of_lt h)

/-- In a strictly ascending nonempty list the head is at most the last
element, so `radio_velocities_to_channels` takes the unreversed branch. -/
theorem sorted_head_le_getLast (l : List ℚ) (hn : l ≠ [])
    (hs : l.Sorted (· < ·)) : l.head hn ≤ l.getLast hn := by
  rw [List.head_eq_getElem, List.getLast_eq_getElem]
  have h := sorted_getElem_mono l hs 0 (l.length - 1)
    (Nat.zero_le _) (by have := List.length_pos.mpr hn; omega)
  simpa [List.get_eq_getElem] using h

/-- Every member of a strictly ascending nonempty list is at most its last
element. -/
theorem sorted_mem_le_getLast (l : List ℚ) (hn : l ≠ [])
    (hs : l.Sorted (· < ·)) (x : ℚ) (hx : x ∈ l) : x ≤ l.getLast hn := by
  rcases List.mem_iff_getElem.mp hx with ⟨i, hi, rfl⟩
  rw [List.getLast_eq_getElem]
  have h := sorted_getElem_mono l hs i (l.length - 1) (by omega) (by omega)
  simpa [List.get_eq_getElem] using h

/-- `radio_velocities_to_channels` on a nonempty axis whose head does not
exceed its last element searches the axis directly (no sorter). -/
theorem rv2ch_of_head_le (rv : List ℚ) (v : ℚ) (hn : rv ≠ [])
    (hle : rv.head hn ≤ rv.getLast hn) :
    radio_velocities_to_channels rv v =
      match rv[searchsorted_left rv v]? with
      | some t => .ok (searchsorted_left rv v, t)
      | none => .error "IndexError" := by
  unfold radio_velocities_to_channels
  rw [List.head?_eq_head hn, List.getLast?_eq_getLast rv hn]
  simp only [if_neg (not_lt.mpr hle)]

/-- A sum over a duplicate-free index list all of whose terms vanish except
the one at `k` collapses to that term. -/
theorem sum_map_eq_of_single (l : List ℕ) (hnd : l.Nodup) (k : ℕ) (hk : k ∈ l)
    (f : ℕ → ℚ) (hz : ∀ c ∈ l, c ≠ k → f c = 0) : (l.map f).sum = f k := by
  induction l with
  | nil => cases hk
  | cons a t ih =>
    rcases List.mem_cons.mp hk with rfl | hk'
    · have ht : ∀ x ∈ t.map f, x = 0 := by
        intro x hx
        rcases List.mem_map.mp hx with ⟨c, hc, rfl⟩
        exact hz c (List.mem_cons_of_mem _ hc)
          (fun hca => (List.nodup_cons.mp hnd).1 (hca ▸ hc))
      simp [List.sum_eq_zero ht]
    · have ha : f a = 0 := by
        refine hz a (List.mem_cons_self _ _) (fun haa => ?_)
        exact (List.nodup_cons.mp hnd).1 (haa ▸ hk')
      rw [List.map_cons, List.sum_cons, ha, zero_add]
      exact ih (List.nodup_cons.mp hnd).2 hk'
        (fun c hc => hz c (List.mem_cons_of_mem _ hc))

/-- The channel selection of `slice(0, n)` on an axis of length `n` is every
channel. -/
theorem sliceSel_full (n : ℕ) : sliceSel n 0 (n : ℤ) = List.range n := by
  unfold sliceSel sliceBound
  rw [List.filter_eq_self]
  intro a ha
  rw [List.mem_range] at ha
  simp
  omega

/-- `sliceSel` lists are duplicate-free. -/
theorem sliceSel_nodup (n : ℕ) (lo hi : ℤ) : (sliceSel n lo hi).Nodup :=
  (List.nodup_range n).filter _

/-- Elimination for a successful lookup: the returned channel is the raw
`searchsorted` insertion index (into the reversed view when the axis
descends, uncorrected), it is in range, and the returned velocity is the
axis entry at that index. -/
theorem rv2ch_cons_ok {a : ℚ} {as : List ℚ} {v : ℚ} {c : ℕ} {t : ℚ}
    (h : radio_velocities_to_channels (a :: as) v = .ok (c, t)) :
    c < (a :: as).length ∧ (a :: as)[c]? = some t ∧
    c = (if a > (a :: as).getLast (List.cons_ne_nil a as)
         then searchsorted_left (a :: as).reverse v
         else searchsorted_left (a :: as) v) := by
  unfold radio_velocities_to_channels at h
  rw [show (a :: as).head? = some a from rfl,
      List.getLast?_eq_getLast _ (List.cons_ne_nil a as)] at h
  set ch := (if a > (a :: as).getLast (List.cons_ne_nil a as)
             then searchsorted_left (a :: as).reverse v
             else searchsorted_left (a :: as) v) with hch
  dsimp only at h
  cases hq : (a :: as)[ch]? with
  | none => rw [hq] at h; exact absurd h (by simp)
  | some tv =>
    rw [hq] at h
    simp only [Except.ok.injEq, Prod.mk.injEq] at h
    obtain ⟨rfl, rfl⟩ := h
    rcases List.getElem?_eq_some.mp hq with ⟨hlt, _⟩
    exact ⟨hlt, hq, rfl⟩

/-! ## Claim theorems -/

/-- **C1** (code bug) — the spec requires the nearest-index search on a
descending axis to correct the index arithmetic back to unreversed indexing,
so that forward and reversed versions of one axis return channels with
matching stored velocities.  The source never maps the `searchsorted` result
back through `sorter`: on the forward axis `[0, 1, 2]` the query `2` yields
channel `2` storing velocity `2`, while on the reversed axis `[2, 1, 0]` the
same query yields channel `2` storing velocity `0` — the correct answer
there is channel `0`.  This contradicts the docstring ("The channels for the
given velocities"). -/
theorem C1_sorter_index_not_corrected :
    radio_velocities_to_channels [0, 1, 2] 2 = .ok (2, 2) ∧
    radio_velocities_to_channels [2, 1, 0] 2 = .ok (2, 0) ∧
    (0 : ℚ) ≠ 2 :=
  ⟨rfl, rfl, by norm_num⟩

/-- **C2** (counterexample) — the claim asserts that on the ascending axis
`[0, 1, 2]` (length `N = 3`) a query at or above the last value returns
index `N - 1 = 2` together with the velocity stored there.  For the query
`3`, strictly above the last value, `searchsorted` returns the insertion
index `3 = N`, and the stored-velocity lookup
`self.radio_velocities[channels]` raises `IndexError` instead. -/
theorem C2_counterexample :
    radio_velocities_to_channels [0, 1, 2] 3 = .error "IndexError" ∧
    radio_velocities_to_channels [0, 1, 2] 3 ≠ .ok (2, 2) :=
  ⟨rfl, fun h => by rw [show radio_velocities_to_channels [0, 1, 2] 3 =
    .error "IndexError" from rfl] at h; exact Except.noConfusion h⟩

/-- **C2** (amended) — on a strictly ascending nonempty radio-velocity axis:
a query at or below the first value returns index `0` with the first stored
velocity; a query equal to the axis value at index `k` returns index `k`
with that stored velocity; in particular a query equal to the last value
returns `N - 1`; and a query strictly above the last value computes the
out-of-range insertion index, so the stored-velocity lookup raises
`IndexError` rather than returning index `N - 1`. -/
theorem C2_ascending_axis_lookup (rv : List ℚ) (v : ℚ) (hn : rv ≠ [])
    (hs : rv.Sorted (· < ·)) :
    (v ≤ rv.head hn → radio_velocities_to_channels rv v = .ok (0, rv.head hn)) ∧
    (∀ k, (hk : k < rv.length) → v = rv.get ⟨k, hk⟩ →
      radio_velocities_to_channels rv v = .ok (k, v)) ∧
    (v = rv.getLast hn →
      radio_velocities_to_channels rv v = .ok (rv.length - 1, v)) ∧
    (rv.getLast hn < v →
      radio_velocities_to_channels rv v = .error "IndexError") := by
  have hb := rv2ch_of_head_le rv v hn (sorted_head_le_getLast rv hn hs)
  have hgen : ∀ k, (hk : k < rv.length) → v = rv.get ⟨k, hk⟩ →
      radio_velocities_to_channels rv v = .ok (k, v) := by
    intro k hk hv
    have hss : searchsorted_left rv v = k := by
      unfold searchsorted_left
      rw [List.findIdx_eq hk]
      refine ⟨by simpa using le_of_eq (hv.trans (List.get_eq_getElem rv _)), ?_⟩
      intro j hj
      have hlt : rv.get ⟨j, Nat.lt_trans hj hk⟩ < rv.get ⟨k, hk⟩ :=
        hs.rel_get_of_lt (a := ⟨j, Nat.lt_trans hj hk⟩) (b := ⟨k, hk⟩)
          (by simpa using hj)
      simp only [decide_eq_false_iff_not, not_le]
      rw [hv]
      simpa [List.get_eq_getElem] using hlt
    rw [hb, hss, List.getElem?_eq_getElem hk]
    rw [hv, List.get_eq_getElem]
  refine ⟨?_, hgen, ?_, ?_⟩
  · intro hv
    have h0 : (0 : ℕ) < rv.length := List.length_pos.mpr hn
    have hss : searchsorted_left rv v = 0 := by
      unfold searchsorted_left
      rw [List.findIdx_eq h0]
      refine ⟨by simpa using hv.trans (le_of_eq (List.head_eq_getElem rv hn)), ?_⟩
      intro j hj
      omega
    rw [hb, hss, List.getElem?_eq_getElem h0]
    rw [List.head_eq_getElem]
  · intro hv
    have h1 : rv.length - 1 < rv.length := by
      have := List.length_pos.mpr hn; omega
    refine hgen (rv.length - 1) h1 ?_
    rw [hv, List.getLast_eq_getElem, List.get_eq_getElem]
  · intro hv
    have hss : searchsorted_left rv v = rv.length := by
      unfold searchsorted_left
      apply List.findIdx_eq_length_of_false
      intro x hx
      simp only [decide_eq_false_iff_not, not_le]
      exact lt_of_le_of_lt (sorted_mem_le_getLast rv hn hs x hx) hv
    rw [hb, hss, List.getElem?_eq_none (le_refl rv.length)]

/-- Witness for `C2_ascending_axis_lookup` at the axis `[0, 1, 2]` and the
on-grid query `1`. -/
theorem C2_ascending_axis_lookup_witness :
    radio_velocities_to_channels [0, 1, 2] 1 = .ok (1, 1) :=
  (C2_ascending_axis_lookup [0, 1, 2] 1 (by decide) (by decide)).2.1
    1 (by decide) (by norm_num)

/-- **C9** (confirmed) — with both the velocity range and the channel range
absent, `moment`'s body is skipped entirely: it raises nothing, touches no
state (the model is pure; the source path reads and writes no attribute) and
falls off the end, returning `None` for every `kind` and mask. -/
theorem C9_no_range_returns_none (rv : List ℚ) (vel : ℕ → ℚ) (nc : ℕ)
    (data : ℕ → ℕ → ℕ → Option ℚ) (kind : ℤ) (mask : Mask) :
    moment rv vel nc data none none kind mask = .ok none :=
  rfl

/-- **C6** (counterexample) — the claim requires an explicit invalid-argument
error for `kind` outside `{0, 1}`; with the valid channel range `(0, 3)` and
`kind = 2` the source instead falls off the end of the function and silently
returns `None` (`.ok none`: no exception, no result). -/
theorem C6_counterexample :
    moment [] (fun _ => 0) 3 (fun _ _ _ => some 1) none (some (0, 3)) 2
      Mask.none = .ok none :=
  rfl

/-- **C6** (amended) — for every `kind` other than `0` and `1`, with a valid
channel range supplied, `moment` raises no error and silently returns `None`:
neither `kind` branch fires and the function body ends. -/
theorem C6_other_kind_silently_none (rv : List ℚ) (vel : ℕ → ℚ) (nc : ℕ)
    (data : ℕ → ℕ → ℕ → Option ℚ) (lo hi : ℚ) (mask : Mask) (kind : ℤ)
    (h0 : kind ≠ 0) (h1 : kind ≠ 1) :
    moment rv vel nc data none (some (lo, hi)) kind mask = .ok none := by
  show momentCompute vel nc data lo hi kind mask = .ok none
  unfold momentCompute
  rw [if_neg h0, if_neg h1]

/-- Witness for `C6_other_kind_silently_none` at `kind = 5`. -/
theorem C6_other_kind_silently_none_witness :
    moment [] (fun _ => 0) 3 (fun _ _ _ => some 1) none (some (0, 3)) 5
      Mask.none = .ok none :=
  C6_other_kind_silently_none [] (fun _ => 0) 3 (fun _ _ _ => some 1) 0 3
    Mask.none 5 (by decide) (by decide)

/-- **C5** (confirmed) — when the recorded spectral axis type contains none
of the three recognised tags `VRAD`, `VOPT`, `FREQ`, the frequency-axis
derivation produces no axis at all: it fails with the unsupported-format
error whose message names the offending type string. -/
theorem C5_unsupported_spectral_type (ctype : String) (restfrq : ℚ)
    (specc : List ℚ)
    (h1 : strContainsSub ctype "VRAD" = false)
    (h2 : strContainsSub ctype "VOPT" = false)
    (h3 : strContainsSub ctype "FREQ" = false) :
    frequencies ctype restfrq specc =
      .error ("Unsupported spectral type " ++ ctype ++ " in header.") := by
  unfold frequencies
  rw [h1, h2, h3]
  rfl

/-- Witness for `C5_unsupported_spectral_type` at the wavelength type tag
`WAVE-LOG`, which matches none of the three conventions. -/
theorem C5_unsupported_spectral_type_witness :
    frequencies "WAVE-LOG" 1420405751 [1, 2] =
      .error ("Unsupported spectral type " ++ "WAVE-LOG" ++ " in header.") :=
  C5_unsupported_spectral_type "WAVE-LOG" 1420405751 [1, 2]
    (by decide) (by decide) (by decide)

/-- **C10** (counterexample) — constructing from a file whose extensions are
all non-image succeeds (`.ok`, no error raised) and loads no extension, but
the claim that *every* subsequent access to `data`, `header` or `hdu` fails
is false: the `hdu` property is a bare `return self._hdu` and simply yields
`None` on such a cube, failing nothing. -/
theorem C10_counterexample :
    datacubeInit (some [⟨false, [1], [("XTENSION", "TABLE")]⟩]) none none =
      .ok none ∧
    datacubeHdu none = none :=
  ⟨rfl, rfl⟩

/-- **C10** (amended) — construction from a path whose extensions include no
image-flagged extension completes without error and leaves no extension
loaded; afterwards `data` and `header` fail with an attribute error, while
`hdu` returns the absent value without failing; and the configuration error
is raised exactly when the path is absent and the (array, metadata) pair is
incomplete. -/
theorem C10_no_image_extension (hdus : List ImageHDU)
    (h : ∀ x ∈ hdus, x.is_image = false)
    (d : Option (List ℚ)) (hd : Option (List (String × String))) :
    datacubeInit (some hdus) d hd = .ok none ∧
    datacubeData none =
      .error "AttributeError: NoneType object has no attribute data" ∧
    datacubeHeader none =
      .error "AttributeError: NoneType object has no attribute header" ∧
    datacubeHdu none = none ∧
    (∀ d2 hd2, (∃ e, datacubeInit none d2 hd2 = .error e) ↔
      (d2 = none ∨ hd2 = none)) := by
  refine ⟨?_, rfl, rfl, rfl, ?_⟩
  · show Except.ok (hdus.find? (fun h => h.is_image)) = Except.ok none
    rw [List.find?_eq_none.mpr (fun x hx => by simp [h x hx])]
  · intro d2 hd2
    cases d2 <;> cases hd2 <;>
      simp [datacubeInit]

/-- Witness for `C10_no_image_extension` on a one-extension table-only
file. -/
theorem C10_no_image_extension_witness :
    datacubeInit (some [⟨false, [1], [("XTENSION", "BINTABLE")]⟩]) none none =
      .ok none ∧
    datacubeData none =
      .error "AttributeError: NoneType object has no attribute data" ∧
    datacubeHeader none =
      .error "AttributeError: NoneType object has no attribute header" ∧
    datacubeHdu none = none ∧
    (∀ d2 hd2, (∃ e, datacubeInit none d2 hd2 = .error e) ↔
      (d2 = none ∨ hd2 = none)) :=
  C10_no_image_extension [⟨false, [1], [("XTENSION", "BINTABLE")]⟩]
    (by decide) none none

/-- Unfolding equation for the `kind = 0` branch of `momentCompute`. -/
theorem momentCompute_kind0 (vel : ℕ → ℚ) (nc : ℕ)
    (data : ℕ → ℕ → ℕ → Option ℚ) (lo hi : ℚ) (mask : Mask) :
    momentCompute vel nc data lo hi 0 mask =
      .ok (some (fun y x =>
        some (((sliceSel nc ⌊lo⌋ ⌈hi⌉).map
          (fun c => ((data c y x).getD 0) * maskVal mask c y x)).sum))) :=
  rfl

/-- Unfolding equation for the `kind = 1` branch of `momentCompute`. -/
theorem momentCompute_kind1 (vel : ℕ → ℚ) (nc : ℕ)
    (data : ℕ → ℕ → ℕ → Option ℚ) (lo hi : ℚ) (mask : Mask) :
    momentCompute vel nc data lo hi 1 mask =
      .ok (some (fun y x =>
        if ((sliceSel nc ⌊lo⌋ ⌈hi⌉).map
            (fun c => ((data c y x).getD 0) * maskVal mask c y x)).sum = 0
        then none
        else some ((((sliceSel nc ⌊lo⌋ ⌈hi⌉).map
            (fun c => ((data c y x).getD 0) * velocities vel c *
              maskVal mask c y x)).sum) /
          (((sliceSel nc ⌊lo⌋ ⌈hi⌉).map
            (fun c => ((data c y x).getD 0) * maskVal mask c y x)).sum)))) :=
  rfl

/-- **C4** (confirmed) — `moment` with `kind = 0`, the channel range
`(0, nc)` covering the whole spectral axis and no mask is the plain
`nansum` of the data along the spectral axis: per spatial pixel, the sum of
the voxels over every channel with `NaN` entries counted as zero. -/
theorem C4_moment0_full_range (rv : List ℚ) (vel : ℕ → ℚ) (nc : ℕ)
    (data : ℕ → ℕ → ℕ → Option ℚ) :
    moment rv vel nc data none (some (0, (nc : ℚ))) 0 Mask.none =
      .ok (some (fun y x =>
        some (((List.range nc).map (fun c => (data c y x).getD 0)).sum))) := by
  have h := momentCompute_kind0 vel nc data 0 (nc : ℚ) Mask.none
  rw [Int.floor_zero, Int.ceil_natCast, sliceSel_full] at h
  calc moment rv vel nc data none (some (0, (nc : ℚ))) 0 Mask.none
      = momentCompute vel nc data 0 (nc : ℚ) 0 Mask.none := rfl
    _ = _ := by rw [h]; simp [maskVal]

/-- **C8** (confirmed) — for every cube, spectral range (velocity- or
channel-specified) and `kind`, a mask shaped like one spatial plane gives
exactly the map that the same mask replicated over every channel of the full
cube shape gives: the plane branch broadcasts `mask[None]` over the selected
channels, the cube branch slices the replicated mask to the same channels,
and both contribute the factor `m y x` at every selected voxel. -/
theorem C8_plane_mask_broadcast (rv : List ℚ) (vel : ℕ → ℚ) (nc : ℕ)
    (data : ℕ → ℕ → ℕ → Option ℚ) (vslice cslice : Option (ℚ × ℚ))
    (kind : ℤ) (m : ℕ → ℕ → ℚ) :
    moment rv vel nc data vslice cslice kind (Mask.plane m) =
      moment rv vel nc data vslice cslice kind
        (Mask.cube (fun _ y x => m y x)) := by
  have hmv : maskVal (Mask.plane m) =
      maskVal (Mask.cube (fun _ y x => m y x)) := by
    funext c y x
    rfl
  unfold moment
  cases hr : resolveRange rv vslice cslice with
  | error e => rfl
  | ok o =>
    cases o with
    | none => rfl
    | some p =>
      rcases p with ⟨lo, hi⟩
      unfold momentCompute
      rw [hmv]

/-- A slice bound given as a natural number within the axis length
normalises to itself. -/
theorem sliceBound_natCast (n k : ℕ) (hk : k ≤ n) :
    sliceBound n (k : ℤ) = k := by
  unfold sliceBound
  rw [if_neg (by omega)]
  omega

/-- **C3** (confirmed; `velocities` modelled from the spec) — with a channel
sub-range and mask fixed: (1) the `kind = 1` map relates to the `kind = 0`
map of the same call parameters by elementwise division — each pixel of the
former is the sum, over the selected channels, of data × per-channel
velocity × mask (`NaN` voxels contributing zero) divided by the latter's
pixel, non-finite where that denominator vanishes; (2) consequently, when a
single selected channel `k` carries all the flux at a pixel (every other
selected voxel zero or `NaN`) and its own weighted intensity is nonzero, the
`kind = 1` value at that pixel is exactly the velocity of channel `k`,
whatever the velocities of the other channels. -/
theorem C3_moment1_weighted_mean (rv : List ℚ) (vel : ℕ → ℚ) (nc : ℕ)
    (data : ℕ → ℕ → ℕ → Option ℚ) (lo hi : ℚ) (mask : Mask) :
    (∀ p1 p0,
      moment rv vel nc data none (some (lo, hi)) 1 mask = .ok (some p1) →
      moment rv vel nc data none (some (lo, hi)) 0 mask = .ok (some p0) →
      ∀ y x, p1 y x = (p0 y x).bind (fun d =>
        if d = 0 then none
        else some ((((sliceSel nc ⌊lo⌋ ⌈hi⌉).map
          (fun c => ((data c y x).getD 0) * vel c *
            maskVal mask c y x)).sum) / d))) ∧
    (∀ y x k, k ∈ sliceSel nc ⌊lo⌋ ⌈hi⌉ →
      (∀ c ∈ sliceSel nc ⌊lo⌋ ⌈hi⌉, c ≠ k → (data c y x).getD 0 = 0) →
      ((data k y x).getD 0) * maskVal mask k y x ≠ 0 →
      ∃ p1,
        moment rv vel nc data none (some (lo, hi)) 1 mask = .ok (some p1) ∧
        p1 y x = some (vel k)) := by
  have hm1 : moment rv vel nc data none (some (lo, hi)) 1 mask =
      momentCompute vel nc data lo hi 1 mask := rfl
  have hm0 : moment rv vel nc data none (some (lo, hi)) 0 mask =
      momentCompute vel nc data lo hi 0 mask := rfl
  constructor
  · intro p1 p0 h1 h0 y x
    rw [hm1, momentCompute_kind1] at h1
    rw [hm0, momentCompute_kind0] at h0
    simp only [Except.ok.injEq, Option.some.injEq] at h1 h0
    subst h1
    subst h0
    rfl
  · intro y x k hk hz hnz
    have hden : ((sliceSel nc ⌊lo⌋ ⌈hi⌉).map
        (fun c => ((data c y x).getD 0) * maskVal mask c y x)).sum
        = (data k y x).getD 0 * maskVal mask k y x :=
      sum_map_eq_of_single _ (sliceSel_nodup nc _ _) k hk _
        (fun c hc hck => by rw [hz c hc hck, zero_mul])
    have hnum : ((sliceSel nc ⌊lo⌋ ⌈hi⌉).map
        (fun c => ((data c y x).getD 0) * velocities vel c *
          maskVal mask c y x)).sum
        = (data k y x).getD 0 * velocities vel k * maskVal mask k y x :=
      sum_map_eq_of_single _ (sliceSel_nodup nc _ _) k hk _
        (fun c hc hck => by rw [hz c hc hck, zero_mul, zero_mul])
    refine ⟨_, hm1.trans (momentCompute_kind1 vel nc data lo hi mask), ?_⟩
    dsimp only
    rw [hden, hnum, if_neg hnz]
    congr 1
    rw [show velocities vel k = vel k from rfl]
    rw [show (data k y x).getD 0 * vel k * maskVal mask k y x
        = vel k * ((data k y x).getD 0 * maskVal mask k y x) from by ring]
    exact mul_div_cancel_right₀ (vel k) hnz

/-- Witness for `C3_moment1_weighted_mean`: a 3-channel cube whose pixel
(0,0) has flux only in channel 1 (channel 0 holds zero, channel 2 holds
`NaN`); the first moment over the full range returns channel 1's velocity
`9`, not the other channels' velocity `3`. -/
theorem C3_moment1_weighted_mean_witness :
    ∃ p1, moment [] (fun c => if c = 1 then 9 else 3) 3
        (fun c _ _ => if c = 1 then some 5 else if c = 2 then none else some 0)
        none (some (0, 3)) 1 Mask.none = .ok (some p1) ∧
      p1 0 0 = some 9 :=
  (C3_moment1_weighted_mean [] (fun c => if c = 1 then 9 else 3) 3
    (fun c _ _ => if c = 1 then some 5 else if c = 2 then none else some 0)
    0 3 Mask.none).2 0 0 1 (by decide) (by decide) (by norm_num [maskVal])

/-- **C7** (confirmed) — for a velocity range `(v0, v1)` with `v0 ≤ v1`
whose endpoint lookups both succeed, returning channels `c0` and `c1`:
`moment` behaves exactly as if called with the channel range
`(c0, c1 + 1)` — endpoints converted through
`radio_velocities_to_channels`, upper bound widened by one channel — and
the integer slice obtained by flooring the lower bound and ceiling the
upper one (both integral already, so floor and ceiling are the identity)
selects a channel set containing both endpoint channels `c0` and `c1`. -/
theorem C7_velocity_range_slice (rv : List ℚ) (vel : ℕ → ℚ) (nc : ℕ)
    (data : ℕ → ℕ → ℕ → Option ℚ) (kind : ℤ) (mask : Mask)
    (v0 v1 : ℚ) (c0 c1 : ℕ) (t0 t1 : ℚ) (hnc : rv.length = nc)
    (h0 : radio_velocities_to_channels rv v0 = .ok (c0, t0))
    (h1 : radio_velocities_to_channels rv v1 = .ok (c1, t1))
    (hv : v0 ≤ v1) :
    moment rv vel nc data (some (v0, v1)) none kind mask =
      moment rv vel nc data none (some ((c0 : ℚ), (c1 : ℚ) + 1)) kind mask ∧
    ⌊(c0 : ℚ)⌋ = (c0 : ℤ) ∧ ⌈(c1 : ℚ) + 1⌉ = (c1 : ℤ) + 1 ∧
    c0 ∈ sliceSel nc (c0 : ℤ) ((c1 : ℤ) + 1) ∧
    c1 ∈ sliceSel nc (c0 : ℤ) ((c1 : ℤ) + 1) := by
  have hmom : moment rv vel nc data (some (v0, v1)) none kind mask =
      moment rv vel nc data none (some ((c0 : ℚ), (c1 : ℚ) + 1)) kind mask := by
    unfold moment resolveRange
    dsimp only
    rw [h0, h1]
  obtain ⟨a, as, rfl⟩ : ∃ a as, rv = a :: as := by
    cases rv with
    | nil => exact absurd h0 (by simp [radio_velocities_to_channels])
    | cons a as => exact ⟨a, as, rfl⟩
  obtain ⟨hc0lt, -, hc0eq⟩ := rv2ch_cons_ok h0
  obtain ⟨hc1lt, -, hc1eq⟩ := rv2ch_cons_ok h1
  have hmono : ∀ l : List ℚ, searchsorted_left l v0 ≤ searchsorted_left l v1 := by
    intro l
    unfold searchsorted_left
    apply List.findIdx_le_findIdx
    intro x hx hvx
    simp only [decide_eq_true_eq] at hvx ⊢
    exact le_trans hv hvx
  have hle : c0 ≤ c1 := by
    rw [hc0eq, hc1eq]
    by_cases hcond : a > (a :: as).getLast (List.cons_ne_nil a as)
    · simp only [if_pos hcond]
      exact hmono _
    · simp only [if_neg hcond]
      exact hmono _
  have hc0n : c0 < nc := hnc ▸ hc0lt
  have hc1n : c1 < nc := hnc ▸ hc1lt
  have hb0 : sliceBound nc (c0 : ℤ) = c0 :=
    sliceBound_natCast nc c0 (le_of_lt hc0n)
  have hb1 : sliceBound nc ((c1 : ℤ) + 1) = c1 + 1 := by
    rw [show ((c1 : ℤ) + 1) = ((c1 + 1 : ℕ) : ℤ) from by push_cast; ring]
    exact sliceBound_natCast nc (c1 + 1) (by omega)
  refine ⟨hmom, by simp, by rw [Int.ceil_add_one, Int.ceil_natCast], ?_, ?_⟩
  · simp only [sliceSel, List.mem_filter, List.mem_range, decide_eq_true_eq,
      hb0, hb1]
    omega
  · simp only [sliceSel, List.mem_filter, List.mem_range, decide_eq_true_eq,
      hb0, hb1]
    omega

/-- Witness for `C7_velocity_range_slice` on the axis `[0, 1, 2]` with the
velocity range `(0, 1)`, whose endpoint channels are `0` and `1`. -/
theorem C7_velocity_range_slice_witness :
    moment [0, 1, 2] (fun _ => 0) 3 (fun _ _ _ => some 1) (some (0, 1)) none
        0 Mask.none =
      moment [0, 1, 2] (fun _ => 0) 3 (fun _ _ _ => some 1) none
        (some (((0 : ℕ) : ℚ), ((1 : ℕ) : ℚ) + 1)) 0 Mask.none ∧
    ⌊((0 : ℕ) : ℚ)⌋ = ((0 : ℕ) : ℤ) ∧
    ⌈((1 : ℕ) : ℚ) + 1⌉ = ((1 : ℕ) : ℤ) + 1 ∧
    (0 : ℕ) ∈ sliceSel 3 ((0 : ℕ) : ℤ) (((1 : ℕ) : ℤ) + 1) ∧
    (1 : ℕ) ∈ sliceSel 3 ((0 : ℕ) : ℤ) (((1 : ℕ) : ℤ) + 1) :=
  C7_velocity_range_slice [0, 1, 2] (fun _ => 0) 3 (fun _ _ _ => some 1)
    0 Mask.none 0 1 0 1 0 1 rfl rfl rfl (by norm_num)
